import Mathlib

/-!
Verification of the Uploader repository: an Express relay with one health
route and one upload route (src/unnamed/part_000), and a React upload
widget (src/frontend/src/components/UploaderWrapper.tsx).

The backend routes are embedded as pure functions from request data to an
HTTP response, with the provider SDK abstracted as a function parameter.
An unguarded runtime fault (such as reading a property of `undefined`) is
modelled as `HandlerFault.typeError`; a rejected provider promise that the
handler does not catch is modelled as `HandlerFault.providerError`.

The widget is embedded as a state (the `selectedFiles` list plus the
`uploading` flag) together with one Lean function per state mutation in
the source, and a small event-step machine that replays any interleaving
of those mutations for lifecycle invariants.
-/

namespace Uploader

/-- A file record as produced by the multer middleware for one uploaded
multipart entry: its temporary path under `uploads/`, its original name
and its size in bytes. -/
structure UploadedFile where
  path : String
  originalname : String
  size : Nat
deriving DecidableEq, Repr

/-- Faults a route handler can hit without answering: the TypeError from
reading `.path` on `req.files[0]` when the files array is empty, and a
provider-SDK rejection that no catch block recovers. -/
inductive HandlerFault where
  | typeError
  | providerError (msg : String)
deriving DecidableEq, Repr

/-- An HTTP response as the Express handlers build it: a status code, the
headers set with `setHeader`, and the JSON body fields `success`,
`message` and (for the upload route) `result`. -/
structure HttpResponse (ρ : Type) where
  status : Nat
  headers : List (String × String)
  success : Bool
  message : String
  result : Option ρ
deriving DecidableEq, Repr

/-- The `app.get("/")` handler (part_000 lines 27-33): sets one custom
header and answers 200 with `{success: true, message: "Server is working
fine"}`, ignoring the request entirely. -/
def rootHandler {Req : Type} (_req : Req) : HttpResponse Unit :=
  { status := 200
    headers := [("customvalue", "somehting")]
    success := true
    message := "Server is working fine"
    result := none }

/-- The `app.post("/upload")` handler (part_000 lines 35-54). The size
check over `req.files` is commented out in the source and therefore absent
here. The handler awaits `Cloudinary.uploader.upload(req.files[0].path)`:
on an empty files array the member access itself faults; a provider
rejection propagates uncaught. The first component records every path
forwarded to the provider SDK. -/
def uploadHandler {ρ : Type} (provider : String → Except String ρ)
    (files : List UploadedFile) :
    List String × Except HandlerFault (HttpResponse ρ) :=
  match files with
  | [] => ([], Except.error HandlerFault.typeError)
  | f :: _ =>
    match provider f.path with
    | Except.error msg => ([f.path], Except.error (HandlerFault.providerError msg))
    | Except.ok result =>
        ([f.path],
         Except.ok
           { status := 200
             headers := []
             success := true
             message := "Uploaded successfully"
             result := some result })

/-- The HTTP status actually sent back by an upload-route outcome: `none`
when the handler faulted without responding. -/
def sentStatus {ρ : Type} (out : Except HandlerFault (HttpResponse ρ)) : Option Nat :=
  match out with
  | Except.ok resp => some resp.status
  | Except.error _ => none

/-- A provider that echoes the path it was given, used to instantiate the
handler on concrete inputs. -/
def echoProvider : String → Except String String :=
  fun p => Except.ok p

/-- A provider that rejects every upload, used to exercise the uncaught
failure path on concrete inputs. -/
def failingProvider : String → Except String String :=
  fun _ => Except.error "provider down"

/-- C7: Every GET / request returns HTTP status 200 with a body whose
success field is true, regardless of request content or prior requests
(the handler keeps no state between requests, so it is a pure function of
the request, and it ignores even that). -/
theorem rootHandler_always_ok {Req : Type} (req : Req) :
    (rootHandler req).status = 200 ∧ (rootHandler req).success = true := by
  constructor <;> rfl

/-- C1: For a POST /upload request carrying files, the handler forwards
only the first file's temporary path to the provider SDK, and whenever the
provider yields a result it responds 200 with body
`{success := true, message, result}` where result is the provider's raw
response. -/
theorem uploadHandler_first_file_only {ρ : Type} (provider : String → Except String ρ)
    (f : UploadedFile) (rest : List UploadedFile) :
    (uploadHandler provider (f :: rest)).1 = [f.path] ∧
    ∀ r : ρ, provider f.path = Except.ok r →
      (uploadHandler provider (f :: rest)).2 =
        Except.ok
          { status := 200
            headers := []
            success := true
            message := "Uploaded successfully"
            result := some r } := by
  constructor
  · simp only [uploadHandler]
    cases h : provider f.path <;> rfl
  · intro r hr
    simp only [uploadHandler, hr]

/-- Witness for C1 at a concrete request: one file list of two entries,
with the echoing provider; only the head's path is forwarded and the body
wraps the provider's response. -/
theorem uploadHandler_first_file_only_witness :
    (uploadHandler echoProvider
        [⟨"uploads/a1", "cat.png", 7⟩, ⟨"uploads/b2", "dog.png", 9⟩]).1 = ["uploads/a1"] ∧
    (uploadHandler echoProvider
        [⟨"uploads/a1", "cat.png", 7⟩, ⟨"uploads/b2", "dog.png", 9⟩]).2 =
      Except.ok
        { status := 200
          headers := []
          success := true
          message := "Uploaded successfully"
          result := some "uploads/a1" } := by
  have h := uploadHandler_first_file_only echoProvider
      ⟨"uploads/a1", "cat.png", 7⟩ [⟨"uploads/b2", "dog.png", 9⟩]
  exact ⟨h.1, h.2 "uploads/a1" rfl⟩

/-- C2: posting zero files makes the handler fault on the unguarded
`req.files[0].path` access instead of completing: the code evaluated at
the empty files array is the TypeError fault, with no response sent. -/
theorem uploadHandler_empty_faults :
    uploadHandler echoProvider [] = ([], Except.error HandlerFault.typeError) := by
  rfl

/-- C5: the handler never answers with a size-based error status: on every
request and every provider behaviour, the status it sends is either none
(it faulted without responding) or exactly 200 — in particular never 413,
because the size-limit branch is commented out of the source. -/
theorem uploadHandler_never_413 {ρ : Type} (provider : String → Except String ρ)
    (files : List UploadedFile) :
    sentStatus (uploadHandler provider files).2 = none ∨
    sentStatus (uploadHandler provider files).2 = some 200 := by
  match files with
  | [] => exact Or.inl rfl
  | f :: rest =>
    simp only [uploadHandler]
    cases h : provider f.path
    · exact Or.inl rfl
    · exact Or.inr rfl

/-! Frontend widget (UploaderWrapper.tsx). -/

/-- Status enum of an UploadItem, exactly the string union in the
`UploadableFile` interface. -/
inductive UStatus where
  | pending
  | uploading
  | success
  | error
deriving DecidableEq, Repr

/-- One tracked item, mirroring the `UploadableFile` interface: the
browser File handle is opaque to all widget logic and is modelled as a
token string. -/
structure UploadItem where
  file : String
  id : String
  url : String
  progress : Nat
  est : String
  status : UStatus
  remoteUrl : Option String
deriving DecidableEq, Repr

/-- The widget's React state: the `selectedFiles` list and the
`uploading` flag. -/
structure UState where
  selectedFiles : List UploadItem
  uploading : Bool
deriving DecidableEq, Repr

/-- Initial state: `useState([])` and `useState(false)`. -/
def initState : UState :=
  { selectedFiles := [], uploading := false }

/-- The data of one accepted dropped file that `onDrop` consumes: the
File handle token, the Math.random identifier drawn for it and the object
URL created for it (both environment-supplied, so carried as inputs). -/
structure FileMeta where
  file : String
  id : String
  url : String
deriving DecidableEq, Repr

/-- The record `onDrop` builds per accepted file (lines 20-27): progress
0, empty est, status pending, no remote URL yet. -/
def mkItem (m : FileMeta) : UploadItem :=
  { file := m.file
    id := m.id
    url := m.url
    progress := 0
    est := ""
    status := UStatus.pending
    remoteUrl := none }

/-- The `onDrop` callback (lines 19-30): appends the new items to the
previous list instead of replacing it. -/
def onDrop (metas : List FileMeta) (s : UState) : UState :=
  { s with selectedFiles := s.selectedFiles ++ metas.map mkItem }

/-- The `onUploadProgress` state update in `uploadSingleFile` (lines
53-76): a falsy total returns without updating; otherwise the item whose
id matches gets progress `Math.floor(loaded*100/total)` (Nat division),
the freshly computed est string, and status uploading. -/
def progressUpdate (id0 : String) (loaded total : Nat) (est0 : String)
    (files : List UploadItem) : List UploadItem :=
  if total = 0 then files
  else
    files.map (fun item =>
      if item.id = id0 then
        { item with progress := loaded * 100 / total, est := est0, status := UStatus.uploading }
      else item)

/-- The success continuation in `handleUpload` (lines 91-102): the
matching item becomes status success, progress 100, with the response's
secure_url stored as remoteUrl. -/
def markSuccess (id0 : String) (remote : String) (files : List UploadItem) : List UploadItem :=
  files.map (fun item =>
    if item.id = id0 then
      { item with status := UStatus.success, progress := 100, remoteUrl := some remote }
    else item)

/-- The catch branch in `handleUpload` (lines 103-112): the matching item
becomes status error with progress 0; its other fields, and every other
item, are spread through unchanged. -/
def markError (id0 : String) (files : List UploadItem) : List UploadItem :=
  files.map (fun item =>
    if item.id = id0 then
      { item with status := UStatus.error, progress := 0 }
    else item)

/-- The outcome the environment hands one upload request: the resolved
response's secure_url, or a rejection. -/
inductive Outcome where
  | ok (remote : String)
  | failed
deriving DecidableEq, Repr

/-- The `handleUpload` function (lines 81-124) with the per-request
network outcome supplied per item id. An empty list returns immediately
with no requests. Otherwise one request is issued per item of the current
list (`selectedFiles.map`), each item's continuation applies its own
id-keyed update, and the finally block leaves `uploading` false. The
second component lists the item ids for which a request was issued, in
order. -/
def handleUpload (outcome : String → Outcome) (s : UState) : UState × List String :=
  if s.selectedFiles.isEmpty then (s, [])
  else
    let reqs := s.selectedFiles.map (fun f => f.id)
    let finalFiles :=
      List.foldl
        (fun acc f =>
          match outcome f.id with
          | Outcome.ok remote => markSuccess f.id remote acc
          | Outcome.failed => markError f.id acc)
        s.selectedFiles
        s.selectedFiles
    ({ selectedFiles := finalFiles, uploading := false }, reqs)

/-- The `resetUploader` handler (lines 126-129): empties the list and
clears the uploading flag. -/
def resetUploader (_s : UState) : UState :=
  { selectedFiles := [], uploading := false }

/-- The `useEffect` cleanup (lines 38-40): when the list is replaced, the
object URL of every item of the outgoing list is revoked. -/
def cleanupUrls (s : UState) : List String :=
  s.selectedFiles.map (fun f => f.url)

/-- The clear operation as the user sees it: `resetUploader` together
with the effect cleanup revoking the discarded items' preview URLs. -/
def clearUploader (s : UState) : UState × List String :=
  (resetUploader s, cleanupUrls s)

/-- The `removeFile` handler (lines 131-134): a no-op while uploading,
otherwise keeps exactly the items whose id differs. -/
def removeFile (id0 : String) (s : UState) : UState :=
  if s.uploading then s
  else { s with selectedFiles := s.selectedFiles.filter (fun f => f.id != id0) }

/-- One externally triggered state mutation of the widget. Progress,
success and failure events carry the data the network callbacks would
carry; beginBatch/endBatch are the `setUploading` calls wrapping a batch. -/
inductive Event where
  | drop (metas : List FileMeta)
  | progress (id : String) (loaded total : Nat) (est : String)
  | success (id : String) (remote : String)
  | failure (id : String)
  | beginBatch
  | endBatch
  | clear
  | remove (id : String)
deriving DecidableEq, Repr

/-- The state transition for one event, each arm delegating to the Lean
function embedding the corresponding source mutation; a drop is dropped
while uploading because the dropzone is constructed with
`disabled: uploading`. -/
def step (s : UState) (e : Event) : UState :=
  match e with
  | Event.drop metas => if s.uploading then s else onDrop metas s
  | Event.progress id0 loaded total est0 =>
      { s with selectedFiles := progressUpdate id0 loaded total est0 s.selectedFiles }
  | Event.success id0 remote =>
      { s with selectedFiles := markSuccess id0 remote s.selectedFiles }
  | Event.failure id0 =>
      { s with selectedFiles := markError id0 s.selectedFiles }
  | Event.beginBatch => { s with uploading := true }
  | Event.endBatch => { s with uploading := false }
  | Event.clear => resetUploader s
  | Event.remove id0 => removeFile id0 s

/-- Replay a whole event sequence from the initial state. -/
def run (es : List Event) : UState :=
  List.foldl step initState es

/-- An event is valid when any progress data it carries satisfies the
transport guarantee that bytes loaded never exceed the total. -/
def validEvent : Event → Bool
  | Event.progress _ loaded total _ => loaded ≤ total
  | _ => true

/-- The lifecycle invariant of one item: progress never exceeds 100 (it
is a natural number, so it is nonnegative by type), and a progress of 100
is only ever carried by an item whose status is uploading or success. -/
def progressInv (item : UploadItem) : Prop :=
  item.progress ≤ 100 ∧
    (item.progress = 100 →
      item.status = UStatus.uploading ∨ item.status = UStatus.success)

theorem progressInv_mkItem (m : FileMeta) : progressInv (mkItem m) := by
  constructor
  · simp [mkItem]
  · intro h
    simp [mkItem] at h

theorem progress_div_le (loaded total : Nat) (hle : loaded ≤ total)
    (hpos : total ≠ 0) : loaded * 100 / total ≤ 100 := by
  have h1 : loaded * 100 ≤ total * 100 := Nat.mul_le_mul_right 100 hle
  have h2 : loaded * 100 / total ≤ total * 100 / total := Nat.div_le_div_right h1
  have h3 : total * 100 / total = 100 :=
    Nat.mul_div_cancel_left 100 (Nat.pos_of_ne_zero hpos)
  omega

theorem step_preserves_progressInv (s : UState) (e : Event)
    (hval : validEvent e = true)
    (hs : ∀ item ∈ s.selectedFiles, progressInv item) :
    ∀ item ∈ (step s e).selectedFiles, progressInv item := by
  cases e with
  | drop metas =>
    by_cases hu : s.uploading = true
    · simpa [step, hu] using hs
    · intro item hmem
      simp [step, hu, onDrop] at hmem
      rcases hmem with h | ⟨m, _, rfl⟩
      · exact hs item h
      · exact progressInv_mkItem m
  | progress id0 loaded total est0 =>
    intro item hmem
    by_cases ht : total = 0
    · simp [step, progressUpdate, ht] at hmem
      exact hs item hmem
    · simp [step, progressUpdate, ht] at hmem
      rcases hmem with ⟨orig, horig, rfl⟩
      by_cases hid : orig.id = id0
      · simp only [hid, if_true, if_pos]
        constructor
        · exact progress_div_le loaded total (by simpa [validEvent] using hval) ht
        · intro _
          exact Or.inl rfl
      · simp only [hid, if_neg, if_false]
        exact hs orig horig
  | success id0 remote =>
    intro item hmem
    simp [step, markSuccess] at hmem
    rcases hmem with ⟨orig, horig, rfl⟩
    by_cases hid : orig.id = id0
    · simp only [hid, if_true, if_pos]
      exact ⟨Nat.le_refl 100, fun _ => Or.inr rfl⟩
    · simp only [hid, if_neg, if_false]
      exact hs orig horig
  | failure id0 =>
    intro item hmem
    simp [step, markError] at hmem
    rcases hmem with ⟨orig, horig, rfl⟩
    by_cases hid : orig.id = id0
    · simp only [hid, if_true, if_pos]
      exact ⟨Nat.zero_le 100, fun h => absurd h (by simp)⟩
    · simp only [hid, if_neg, if_false]
      exact hs orig horig
  | beginBatch => simpa [step] using hs
  | endBatch => simpa [step] using hs
  | clear =>
    intro item hmem
    simp [step, resetUploader] at hmem
  | remove id0 =>
    by_cases hu : s.uploading = true
    · simpa [step, removeFile, hu] using hs
    · intro item hmem
      simp [step, removeFile, hu] at hmem
      exact hs item hmem.1

theorem foldl_preserves_progressInv (es : List Event) :
    ∀ s : UState, (∀ e ∈ es, validEvent e = true) →
      (∀ item ∈ s.selectedFiles, progressInv item) →
      ∀ item ∈ (List.foldl step s es).selectedFiles, progressInv item := by
  induction es with
  | nil =>
    intro s _ hs
    simpa using hs
  | cons e rest ih =>
    intro s hval hs
    simp only [List.foldl_cons]
    exact ih (step s e) (fun x hx => hval x (List.mem_cons_of_mem _ hx))
      (step_preserves_progressInv s e (hval e (List.mem_cons_self _ _)) hs)

/-- A dropped file used by the concrete scenarios below. -/
def metaA : FileMeta :=
  { file := "fa", id := "a", url := "ua" }

/-- An event trace in which the single progress event reports 3 of 5
bytes loaded. -/
def sampleTrace : List Event :=
  [Event.drop [metaA], Event.progress "a" 3 5 "2s remaining"]

/-- The item that `sampleTrace` produces. -/
def sampleItem : UploadItem :=
  { file := "fa", id := "a", url := "ua", progress := 60, est := "2s remaining",
    status := UStatus.uploading, remoteUrl := none }

/-- C3 (amended): at every reachable point of the widget lifecycle, under
the transport guarantee that progress events report loaded ≤ total, every
item's progress lies within [0,100] (progress is a natural number, so
only the upper bound is substantive), and progress equals 100 only when
the item's status is uploading or success — not only on success, because
the final progress callback of a transfer sets 100 while the status is
still uploading. -/
theorem item_progress_in_range (es : List Event)
    (hval : ∀ e ∈ es, validEvent e = true) :
    ∀ item ∈ (run es).selectedFiles,
      item.progress ≤ 100 ∧
      (item.progress = 100 →
        item.status = UStatus.uploading ∨ item.status = UStatus.success) := by
  have h := foldl_preserves_progressInv es initState hval
    (by intro item hmem; simp [initState] at hmem)
  intro item hmem
  exact h item hmem

/-- Witness for C3 at a concrete valid trace: after one drop and one
progress event of 3 of 5 bytes, the tracked item has progress 60, within
range, and the range theorem applies to it. -/
theorem item_progress_in_range_witness :
    sampleItem.progress ≤ 100 ∧
    (sampleItem.progress = 100 →
      sampleItem.status = UStatus.uploading ∨ sampleItem.status = UStatus.success) :=
  item_progress_in_range sampleTrace (by decide) sampleItem (by decide)

/-- Counterexample to C3 as stated: the claim that progress reaches 100
only on success is false on the code. After a drop and a final progress
event reporting 5 of 5 bytes (exactly the event for which the source
computes the "Finishing..." label), the item has progress 100 while its
status is uploading, not success. Moreover without the loaded ≤ total
transport guarantee the code's `Math.floor(loaded*100/total)` leaves
[0,100] outright: a progress event reporting 7 of 5 bytes yields 140. -/
theorem item_progress_claim_false :
    (∃ item ∈ (run [Event.drop [metaA],
        Event.progress "a" 5 5 "Finishing..."]).selectedFiles,
      item.progress = 100 ∧ item.status ≠ UStatus.success) ∧
    (∃ item ∈ (run [Event.drop [metaA],
        Event.progress "a" 7 5 "1s remaining"]).selectedFiles,
      100 < item.progress) := by
  decide

/-- The item at position i of the list after `markError`; the list keeps
its length because `markError` is a map. -/
def markErrorAt (id0 : String) (files : List UploadItem) (i : Fin files.length) :
    UploadItem :=
  (markError id0 files).get ⟨i.val, by simp [markError]⟩

theorem foldl_drops (dropss : List (List FileMeta)) :
    ∀ s : UState, s.uploading = false →
      List.foldl step s (dropss.map Event.drop) =
        { selectedFiles := s.selectedFiles ++ (dropss.map (fun d => d.map mkItem)).flatten,
          uploading := false } := by
  induction dropss with
  | nil =>
    intro s hu
    cases s with
    | mk files flag =>
      simp only at hu
      subst hu
      simp
  | cons d rest ih =>
    intro s hu
    simp only [List.map_cons, List.foldl_cons]
    rw [show step s (Event.drop d) = onDrop d s by simp [step, hu]]
    rw [ih (onDrop d s) (by simp [onDrop, hu])]
    simp [onDrop, List.append_assoc]

/-- C6: after any sequence of drop events from the initial state, the
number of tracked items equals the total number of files accepted across
all drops, and every item in the list is still in pending status with
progress 0. -/
theorem drops_accumulate (dropss : List (List FileMeta)) :
    (run (dropss.map Event.drop)).selectedFiles.length = (dropss.map List.length).sum ∧
    ∀ item ∈ (run (dropss.map Event.drop)).selectedFiles,
      item.status = UStatus.pending ∧ item.progress = 0 := by
  have h := foldl_drops dropss initState rfl
  constructor
  · rw [run, h]
    simp [initState, List.length_flatten, Function.comp_def, List.length_map]
  · intro item hmem
    rw [run, h] at hmem
    simp only [initState, List.nil_append] at hmem
    rcases List.mem_flatten.mp hmem with ⟨l, hl, hil⟩
    rcases List.mem_map.mp hl with ⟨d, _, rfl⟩
    rcases List.mem_map.mp hil with ⟨m, _, rfl⟩
    exact ⟨rfl, rfl⟩

/-- A second and third dropped file for the concrete scenarios. -/
def metaB : FileMeta :=
  { file := "fb", id := "b", url := "ub" }

def metaC : FileMeta :=
  { file := "fc", id := "c", url := "uc" }

/-- Witness for C6 at a concrete pair of drops: one file then two more
give three tracked items, and the first of them is pending at progress
0. -/
theorem drops_accumulate_witness :
    (run ([[metaA], [metaB, metaC]].map Event.drop)).selectedFiles.length = 3 ∧
    (mkItem metaA).status = UStatus.pending ∧ (mkItem metaA).progress = 0 := by
  have h := drops_accumulate [[metaA], [metaB, metaC]]
  exact ⟨by simpa using h.1, h.2 (mkItem metaA) (by decide)⟩

/-- C4: when the upload of the item with identifier id0 fails, the catch
branch sets exactly the matching position to status error with progress
0, leaves every other position of the list completely unchanged (hence
its status, progress and remoteUrl), and the batch issues exactly one
request per item of the list whatever the outcomes are — in particular no
second request for a failed item. -/
theorem failure_isolated (files : List UploadItem) (id0 : String)
    (outcome : String → Outcome) (s : UState) :
    (markError id0 files).length = files.length ∧
    (∀ i : Fin files.length,
      ((files.get i).id = id0 →
        (markErrorAt id0 files i).status = UStatus.error ∧
        (markErrorAt id0 files i).progress = 0) ∧
      ((files.get i).id ≠ id0 → markErrorAt id0 files i = files.get i)) ∧
    (handleUpload outcome s).2 = s.selectedFiles.map (fun f => f.id) := by
  refine ⟨by simp [markError], fun i => ?_, ?_⟩
  · constructor
    · intro hid
      rw [List.get_eq_getElem] at hid
      refine ⟨?_, ?_⟩ <;>
        simp [markErrorAt, markError, List.get_eq_getElem, List.getElem_map, hid]
    · intro hid
      rw [List.get_eq_getElem] at hid
      simp [markErrorAt, markError, List.get_eq_getElem, List.getElem_map, hid]
  · cases s with
    | mk files0 flag =>
      cases files0 with
      | nil => simp [handleUpload]
      | cons f rest => simp [handleUpload]

/-- Items used by the concrete widget scenarios: one pending item per
identifier, plus one that has already succeeded. -/
def demoA : UploadItem :=
  { file := "fa", id := "a", url := "ua", progress := 0, est := "",
    status := UStatus.pending, remoteUrl := none }

def demoB : UploadItem :=
  { file := "fb", id := "b", url := "ub", progress := 0, est := "",
    status := UStatus.pending, remoteUrl := none }

def demoDone : UploadItem :=
  { file := "fd", id := "d", url := "ud", progress := 100, est := "",
    status := UStatus.success, remoteUrl := some "https://cdn/d" }

/-- An outcome assignment that fails the upload of item a and resolves
every other request. -/
def demoOutcome : String → Outcome :=
  fun i => if i = "a" then Outcome.failed else Outcome.ok "https://cdn/x"

/-- A widget state holding the two pending items with no batch in
flight. -/
def demoState : UState :=
  { selectedFiles := [demoA, demoB], uploading := false }

/-- Witness for C4 at a concrete batch: in the two-item list, failing the
upload of item a marks position 0 error at progress 0, leaves position 1
untouched, and the batch issued exactly the two requests a and b. -/
theorem failure_isolated_witness :
    ((markErrorAt "a" [demoA, demoB] ⟨0, by decide⟩).status = UStatus.error ∧
      (markErrorAt "a" [demoA, demoB] ⟨0, by decide⟩).progress = 0) ∧
    markErrorAt "a" [demoA, demoB] ⟨1, by decide⟩ = demoB ∧
    (handleUpload demoOutcome demoState).2 = ["a", "b"] := by
  have h := failure_isolated [demoA, demoB] "a" demoOutcome demoState
  refine ⟨(h.2.1 ⟨0, by decide⟩).1 (by decide), (h.2.1 ⟨1, by decide⟩).2 (by decide), ?_⟩
  rw [h.2.2]
  decide

/-- C8: while an upload batch is in flight, removeFile leaves the state
unchanged; with no batch in flight, removeFile keeps the uploading flag
false and keeps exactly (as a sublist, preserving order, content and
multiplicity) the items whose identifier differs from the removed one. -/
theorem removeFile_spec (s : UState) (id0 : String) :
    (s.uploading = true → removeFile id0 s = s) ∧
    (s.uploading = false →
      (removeFile id0 s).uploading = false ∧
      List.Sublist (removeFile id0 s).selectedFiles s.selectedFiles ∧
      (∀ f ∈ (removeFile id0 s).selectedFiles, f.id ≠ id0) ∧
      (∀ f ∈ s.selectedFiles, f.id ≠ id0 → f ∈ (removeFile id0 s).selectedFiles) ∧
      (∀ f : UploadItem, f.id ≠ id0 →
        (removeFile id0 s).selectedFiles.count f = s.selectedFiles.count f)) := by
  constructor
  · intro hu
    simp [removeFile, hu]
  · intro hu
    refine ⟨by simp [removeFile, hu], by simp [removeFile, hu, List.filter_sublist],
      ?_, ?_, ?_⟩
    · intro f hf
      simp [removeFile, hu, List.mem_filter] at hf
      exact hf.2
    · intro f hf hne
      simp [removeFile, hu, List.mem_filter]
      exact ⟨hf, hne⟩
    · intro f hne
      simp only [removeFile, hu, Bool.false_eq_true, if_false]
      exact List.count_filter (by simpa using hne)

/-- Witness for C8 at concrete states: removal is inert on an uploading
state, and on an idle two-item state removing id a keeps item b (whose
multiplicity is preserved) and drops every item with id a. -/
theorem removeFile_spec_witness :
    removeFile "a" { selectedFiles := [demoA, demoB], uploading := true } =
      { selectedFiles := [demoA, demoB], uploading := true } ∧
    (removeFile "a" demoState).uploading = false ∧
    (∀ f ∈ (removeFile "a" demoState).selectedFiles, f.id ≠ "a") ∧
    demoB ∈ (removeFile "a" demoState).selectedFiles ∧
    (removeFile "a" demoState).selectedFiles.count demoB =
      demoState.selectedFiles.count demoB := by
  have h1 := removeFile_spec { selectedFiles := [demoA, demoB], uploading := true } "a"
  have h2 := removeFile_spec demoState "a"
  have h2' := h2.2 rfl
  exact ⟨h1.1 rfl, h2'.1, h2'.2.2.1, h2'.2.2.2.1 demoB (by decide) (by decide),
    h2'.2.2.2.2 demoB (by decide)⟩

/-- C9: clearing discards all tracked items — afterwards the list is
empty and the uploading flag is false — and the effect cleanup revokes
the preview URL of every discarded item. -/
theorem clearUploader_spec (s : UState) :
    (clearUploader s).1.selectedFiles = [] ∧
    (clearUploader s).1.uploading = false ∧
    ∀ item ∈ s.selectedFiles, item.url ∈ (clearUploader s).2 := by
  refine ⟨rfl, rfl, ?_⟩
  intro item hmem
  simpa [clearUploader, cleanupUrls] using List.mem_map_of_mem (fun f => f.url) hmem

/-- Witness for C9 at the concrete two-item state: clearing empties the
list, resets the flag, and the revoked URLs include item a's preview
URL. -/
theorem clearUploader_spec_witness :
    (clearUploader demoState).1.selectedFiles = [] ∧
    (clearUploader demoState).1.uploading = false ∧
    demoA.url ∈ (clearUploader demoState).2 := by
  have h := clearUploader_spec demoState
  exact ⟨h.1, h.2.1, h.2.2 demoA (by decide)⟩

/-- C10: triggering an upload on an empty list issues no requests and
changes nothing; otherwise it issues exactly one request per item of the
current list, whatever each item's status is — in particular an item
already in success status is uploaded again, not skipped. -/
theorem handleUpload_requests (outcome : String → Outcome) (s : UState) :
    (s.selectedFiles = [] → handleUpload outcome s = (s, [])) ∧
    ((handleUpload outcome s).2).length = s.selectedFiles.length ∧
    (∀ item ∈ s.selectedFiles, item.id ∈ (handleUpload outcome s).2) := by
  cases s with
  | mk files0 flag =>
    cases files0 with
    | nil =>
      refine ⟨fun _ => rfl, by simp [handleUpload], ?_⟩
      intro item hmem
      simp at hmem
    | cons f rest =>
      refine ⟨fun h => by simp at h, by simp [handleUpload], ?_⟩
      intro item hmem
      simp only [handleUpload, List.isEmpty_cons, if_false, Bool.false_eq_true]
      exact List.mem_map_of_mem (fun f => f.id) hmem

/-- Witness for C10 at concrete states: the empty list issues no requests
and leaves the state alone, while a list holding one already-successful
item and one pending item issues both requests, including one for the
successful item. -/
theorem handleUpload_requests_witness :
    handleUpload demoOutcome initState = (initState, []) ∧
    ((handleUpload demoOutcome
        { selectedFiles := [demoDone, demoB], uploading := false }).2).length = 2 ∧
    demoDone.id ∈ (handleUpload demoOutcome
        { selectedFiles := [demoDone, demoB], uploading := false }).2 := by
  have h1 := handleUpload_requests demoOutcome initState
  have h2 := handleUpload_requests demoOutcome
    { selectedFiles := [demoDone, demoB], uploading := false }
  exact ⟨h1.1 rfl, by simpa using h2.2.1, h2.2.2 demoDone (by decide)⟩

end Uploader
